import Mathlib

/-!
Shallow embedding of the on-chain registry and allocation client of
`contract-client/src/client.rs` (subsquid-network).

Modelling conventions:
* `Address` (20-byte EVM address) and `PeerId` (libp2p peer identifier) are
  modelled as `Nat`; only their decidable equality matters to the client code.
* `Bytes` (the raw on-chain byte blobs carrying peer ids) is `List Nat`.
* `U256` quantities are modelled as `Nat`; where the `ethers`/`uint` crate
  arithmetic can panic (checked subtraction underflow, `try_into`/`as_u64`
  overflow) the embedded function returns `none`, i.e. `Option` models panic.
* `PeerId::from_bytes` is an external libp2p decoder that can fail; it is
  modelled as an arbitrary parameter `decode : Bytes → Option PeerId`.
* Network reads (contract calls, block queries) are modelled by passing the
  chain's responses as explicit data (snapshot structures / lists of pages);
  fallible RPC transport is outside the embedded functions, whose own error
  behaviour (`Except ClientError`) is embedded from the source.
* Where a claim counts contract calls, the embedded function additionally
  returns that count (an instrumentation of the same control flow).
-/

namespace Subsquid

abbrev Address := Nat

abbrev PeerId := Nat

abbrev Bytes := List Nat

/-- Error type of the client. Only the variants that the embedded code paths
can produce are modelled: `blockNotFound` is `ClientError::BlockNotFound`
(returned by `current_epoch_start`), `invalidPeerId` is the error produced by
a failing `PeerId::from_bytes` conversion, and `rpc` stands for the
transport/contract error variants (never produced by the embedded pure
post-processing, but present so that "fails with this kind and no other kind"
is a non-trivial statement). -/
inductive ClientError where
  | blockNotFound
  | invalidPeerId
  | rpc
deriving DecidableEq, Repr

/-- Subtraction of `ethers` `U256` values, as generated by the `uint` crate:
`a - b` is checked and panics ("arithmetic operation overflow") when `b > a`;
it never wraps around. `none` models the panic. -/
def U256sub (a b : Nat) : Option Nat :=
  if b ≤ a then some (a - b) else none

/-- Conversion of a `U256` value to `u64` (`try_into().expect(..)` /
`as_u64()`): panics when the value does not fit in 64 bits. -/
def toU64 (a : Nat) : Option Nat :=
  if a < 2 ^ 64 then some a else none

/-- Chain state consumed by `current_epoch_start`: the network controller's
`next_epoch()` and `epoch_length()` call results, and the two block stores
(block number → block timestamp, `none` when the block is absent) of the
L1 (anchor) and L2 providers. -/
structure EpochChain where
  nextEpoch : Nat
  epochLength : Nat
  l1Blocks : Nat → Option Nat
  l2Blocks : Nat → Option Nat

/-- Embeds `EthersClient::current_epoch_start` (client.rs:190-204).
`block_num = next_epoch - epoch_length` with checked `U256` subtraction and a
checked conversion to `u64`; the block is looked up on the **L1** provider;
a missing block is `ClientError::BlockNotFound`; on success the result is the
block's timestamp in seconds (`UNIX_EPOCH + Duration::from_secs(ts)` is
represented by `ts` itself, after the checked `as_u64` conversion).
The outer `Option` models a panic of the Rust code (`none` = abort). -/
def current_epoch_start (s : EpochChain) : Option (Except ClientError Nat) :=
  match U256sub s.nextEpoch s.epochLength with
  | none => none
  | some d =>
    match toU64 d with
    | none => none
    | some blockNum =>
      match s.l1Blocks blockNum with
      | none => some (Except.error ClientError.blockNotFound)
      | some ts =>
        match toU64 ts with
        | none => none
        | some t => some (Except.ok t)

/-- The constant `GATEWAYS_PAGE_SIZE` (client.rs:23). -/
def GATEWAYS_PAGE_SIZE : Nat := 10000

/-- Embeds the pagination loop of `EthersClient::active_gateways`
(client.rs:245-258). The chain's pages, all read at the pinned block height,
are given as a list (`pages.getD i []` would be page `i`; requesting past the
end of the data yields an empty page, which the `[]` case models). Each
constructor case performs exactly one page request; the second component of
the result counts those requests. A page's decodable blobs are appended via
`filter_map (PeerId::from_bytes .. ok())`; the loop stops when the *raw* page
length is strictly below `GATEWAYS_PAGE_SIZE`. -/
def active_gateways_loop (decode : Bytes → Option PeerId) :
    List (List Bytes) → List PeerId × Nat
  | [] => ([], 1)
  | p :: rest =>
    if p.length < GATEWAYS_PAGE_SIZE then (p.filterMap decode, 1)
    else
      let r := active_gateways_loop decode rest
      (p.filterMap decode ++ r.1, r.2 + 1)

/-- Snapshot chain state for a paginated gateway read: `latestBlock` is the
result of `get_block_number()` fetched before the first page request, and
`pagesAt b` is the page sequence the registry would serve at block height
`b`. -/
structure PagedChain where
  latestBlock : Nat
  pagesAt : Nat → List (List Bytes)

/-- Embeds `EthersClient::active_gateways` (client.rs:242-260): pins the
latest block height, then runs the pagination loop against that single
snapshot and wraps the accumulated peer ids in `Ok`. The second component
counts page requests. -/
def active_gateways (decode : Bytes → Option PeerId) (c : PagedChain) :
    Except ClientError (List PeerId) × Nat :=
  let r := active_gateways_loop decode (c.pagesAt c.latestBlock)
  (Except.ok r.1, r.2)

/-- Specification-side helper: the pages the pagination loop actually visits
(every leading full page plus the terminal short page). -/
def visited_pages : List (List Bytes) → List (List Bytes)
  | [] => []
  | p :: rest =>
    if p.length < GATEWAYS_PAGE_SIZE then [p] else p :: visited_pages rest

/-- Raw worker record as returned by the `getActiveWorkers` contract call
(the `contracts::Worker` ABI struct). -/
structure ContractsWorker where
  peer_id : Bytes
  creator : Address
  bond : Nat
  registered_at : Nat
  deregistered_at : Nat
deriving DecidableEq, Repr

/-- The client's public `Worker` value (client.rs:40-47). -/
structure Worker where
  peer_id : PeerId
  onchain_id : Nat
  address : Address
  bond : Nat
  registered_at : Nat
  deregistered_at : Option Nat
deriving DecidableEq, Repr

/-- Embeds `Worker::new` (client.rs:50-61): peer id bytes are decoded (the
`?` on a failed decode yields the conversion error), and a raw
`deregistered_at` of `0` is mapped to `none` via
`(deregistered_at > 0).then_some(..)`. -/
def Worker.new (decode : Bytes → Option PeerId) (w : ContractsWorker)
    (onchain_id : Nat) : Except ClientError Worker :=
  match decode w.peer_id with
  | none => Except.error ClientError.invalidPeerId
  | some pid =>
    Except.ok
      { peer_id := pid
        onchain_id := onchain_id
        address := w.creator
        bond := w.bond
        registered_at := w.registered_at
        deregistered_at :=
          if 0 < w.deregistered_at then some w.deregistered_at else none }

/-- Embeds the post-multicall processing of `EthersClient::active_workers`
(client.rs:221-232): the worker structs and the parallel on-chain id list
(the two multicall results) are zipped by position, each pair goes through
`Worker::new`, failing conversions are dropped (`filter_map` with a logged
`None`), and the surviving workers are returned as `Ok`. -/
def active_workers (decode : Bytes → Option PeerId)
    (workers : List ContractsWorker) (onchain_ids : List Nat) :
    Except ClientError (List Worker) :=
  Except.ok
    ((workers.zip onchain_ids).filterMap (fun wi =>
      match Worker.new decode wi.1 wi.2 with
      | Except.ok w => some w
      | Except.error _ => none))

/-- The client's public `Allocation` value (client.rs:26-30). -/
structure Allocation where
  worker_peer_id : PeerId
  worker_onchain_id : Nat
  computation_units : Nat
deriving DecidableEq, Repr

/-- Chain state consumed by `current_allocations` for a fixed gateway
(`client_id`): the address returned by `get_used_strategy(gateway_id)`, the
default strategy address fetched once at construction
(`default_strategy_addr`), and the resolved strategy contract's
`computationUnitsPerEpoch(gateway_id, worker_onchain_id)` responses, as a
function of the worker's on-chain id. -/
structure AllocChain where
  used_strategy : Address
  default_strategy_addr : Address
  cu_per_epoch : Nat → Nat

/-- Result of the embedded `current_allocations`, instrumented with the
contract calls the control flow performs: `used_strategy_calls` counts
`get_used_strategy` calls and `cu_calls` lists, in order, the worker
on-chain ids passed to `computationUnitsPerEpoch` queries (whether issued
singly on the fast path or batched in the multicall). -/
structure AllocOutcome where
  allocations : List Allocation
  used_strategy_calls : Nat
  cu_calls : List Nat
deriving DecidableEq, Repr

/-- Embeds `EthersClient::current_allocations` (client.rs:262-312) after the
worker list has been resolved. An empty worker list returns `[]` before any
contract call. Otherwise the used strategy is resolved; if it equals the
default strategy address exactly, a single `computationUnitsPerEpoch` query
for the first worker is issued and its value replicated across all workers;
otherwise one query per worker is batched and zipped positionally with the
worker list. -/
def current_allocations (c : AllocChain) (workers : List Worker) : AllocOutcome :=
  match workers with
  | [] => { allocations := [], used_strategy_calls := 0, cu_calls := [] }
  | w0 :: rest =>
    let ws := w0 :: rest
    if c.used_strategy = c.default_strategy_addr then
      let cus_per_epoch := c.cu_per_epoch w0.onchain_id
      { allocations := ws.map (fun w =>
          { worker_peer_id := w.peer_id
            worker_onchain_id := w.onchain_id
            computation_units := cus_per_epoch })
        used_strategy_calls := 1
        cu_calls := [w0.onchain_id] }
    else
      let compute_units := ws.map (fun w => c.cu_per_epoch w.onchain_id)
      { allocations := (ws.zip compute_units).map (fun p =>
          { worker_peer_id := p.1.peer_id
            worker_onchain_id := p.1.onchain_id
            computation_units := p.2 })
        used_strategy_calls := 1
        cu_calls := ws.map (fun w => w.onchain_id) }

/-- Embeds the worker-list resolution at the top of `current_allocations`
(client.rs:267-270): an explicitly supplied list is used as is, otherwise the
freshly fetched active-worker list (given here as `fetched`). -/
def resolved_workers (fetched : List Worker) (arg : Option (List Worker)) :
    List Worker :=
  match arg with
  | some ws => ws
  | none => fetched

/-- Embeds `EthersClient::current_allocations` including its worker-list
resolution (client.rs:262-312). -/
def current_allocations_opt (c : AllocChain) (fetched : List Worker)
    (arg : Option (List Worker)) : AllocOutcome :=
  current_allocations c (resolved_workers fetched arg)

/-- Raw allocation record as returned by the allocations viewer's
`get_allocations` contract call. -/
structure AllocationRec where
  gateway_id : Bytes
  operator : Address
  allocated : Nat
deriving DecidableEq, Repr

/-- The client's public `GatewayCluster` value (client.rs:33-37). -/
structure GatewayCluster where
  operator_addr : Address
  gateway_ids : List PeerId
  allocated_computation_units : Nat
deriving DecidableEq, Repr

/-- Embeds the body of the per-record loop of
`EthersClient::gateway_clusters` (client.rs:327-341): a record whose gateway
id bytes fail to decode is skipped (`continue`) before touching the map;
otherwise `clusters.entry(operator).or_insert_with(..)` creates the cluster
with this record's `allocated` value when the operator is new, and in either
case the decoded gateway peer id is pushed onto the cluster's member list.
The Rust `HashMap` (unspecified value order) is modelled as a list of
clusters in first-insertion order, one admissible order. -/
def add_allocation (decode : Bytes → Option PeerId)
    (clusters : List GatewayCluster) (a : AllocationRec) : List GatewayCluster :=
  match decode a.gateway_id with
  | none => clusters
  | some pid =>
    if clusters.any (fun c => c.operator_addr = a.operator) then
      clusters.map (fun c =>
        if c.operator_addr = a.operator then
          { c with gateway_ids := c.gateway_ids ++ [pid] }
        else c)
    else
      clusters ++
        [{ operator_addr := a.operator
           gateway_ids := [pid]
           allocated_computation_units := a.allocated }]

/-- The aggregation of `gateway_clusters` applied to the flat sequence of
allocation records the pagination loop visits, in visit order. -/
def gateway_clusters_of_recs (decode : Bytes → Option PeerId)
    (rs : List AllocationRec) : List GatewayCluster :=
  rs.foldl (add_allocation decode) []

/-- Embeds the pagination loop of `EthersClient::gateway_clusters`
(client.rs:317-346), with the same page protocol as `active_gateways_loop`:
each case is one `get_allocations` page request (counted in the second
component), every record of a fetched page is folded into the cluster map,
and the loop stops when the raw page length is strictly below
`GATEWAYS_PAGE_SIZE`. -/
def gateway_clusters_loop (decode : Bytes → Option PeerId)
    (clusters : List GatewayCluster) :
    List (List AllocationRec) → List GatewayCluster × Nat
  | [] => (clusters, 1)
  | p :: rest =>
    if p.length < GATEWAYS_PAGE_SIZE then (p.foldl (add_allocation decode) clusters, 1)
    else
      let r := gateway_clusters_loop decode (p.foldl (add_allocation decode) clusters) rest
      (r.1, r.2 + 1)

/-- Snapshot chain state for `gateway_clusters`: the pinned latest block and
the allocation pages the viewer would serve at a block height for a worker
id. -/
structure AllocPagedChain where
  latestBlock : Nat
  allocationsAt : Nat → Nat → List (List AllocationRec)

/-- Embeds `EthersClient::gateway_clusters` (client.rs:314-348): pins the
latest block height, runs the paginated aggregation against that snapshot
for the given worker id, and returns the cluster values with the page
request count. -/
def gateway_clusters (decode : Bytes → Option PeerId) (c : AllocPagedChain)
    (worker_id : Nat) : List GatewayCluster × Nat :=
  gateway_clusters_loop decode [] (c.allocationsAt c.latestBlock worker_id)

/-- Specification-side helper: the allocation records whose gateway id bytes
decode successfully (the records `gateway_clusters` does not skip). -/
def decodable_recs (decode : Bytes → Option PeerId) (rs : List AllocationRec) :
    List AllocationRec :=
  rs.filter (fun r => (decode r.gateway_id).isSome)

/-- Specification-side helper: the cluster the amended claim predicts for an
operator — present iff some decodable record names the operator, carrying
the `allocated` value of the *first decodable* record for that operator and
the decoded gateway ids of *all* decodable records for that operator, in
visit order. -/
def cluster_spec (decode : Bytes → Option PeerId) (rs : List AllocationRec)
    (op : Address) : Option GatewayCluster :=
  ((decodable_recs decode rs).find? (fun r => decide (r.operator = op))).map
    (fun r0 =>
      { operator_addr := op
        gateway_ids :=
          ((decodable_recs decode rs).filter
            (fun r => decide (r.operator = op))).filterMap
            (fun r => decode r.gateway_id)
        allocated_computation_units := r0.allocated })

/-- Fetch results of one tick of the membership stream: the outcome of
`active_gateways()` and of `active_workers()` on that tick. -/
structure TickFetch where
  gateways : Except ClientError (List PeerId)
  workers : Except ClientError (List Worker)

/-- Embeds the per-tick body of `Client::network_nodes_stream`
(client.rs:105-111): fetch gateways (a failure short-circuits via `?`),
fetch workers (likewise), build a `HashSet` from the gateway peer ids and
extend it with the worker peer ids. The `HashSet` is a `Finset`. -/
def network_nodes_tick (t : TickFetch) : Except ClientError (Finset PeerId) :=
  match t.gateways with
  | Except.error e => Except.error e
  | Except.ok gateways =>
    match t.workers with
    | Except.error e => Except.error e
    | Except.ok workers =>
      Except.ok (gateways.toFinset ∪ (workers.map (fun w => w.peer_id)).toFinset)

/-- Embeds `Client::network_nodes_stream` (client.rs:102-113) over a finite
prefix of the infinite interval-driven stream: tick `i` runs the tick body
against that tick's fetch results, independently of every other tick. -/
def network_nodes_stream (ticks : List TickFetch) :
    List (Except ClientError (Finset PeerId)) :=
  ticks.map network_nodes_tick

/-! Helper lemmas. -/

/-- Filtering with an everywhere-successful partial function keeps the
length. -/
theorem aux_filterMap_length_all_some {α β : Type} (f : α → Option β)
    (hf : ∀ x, (f x).isSome) (l : List α) :
    (l.filterMap f).length = l.length := by
  induction l with
  | nil => rfl
  | cons a t ih =>
    obtain ⟨y, hy⟩ := Option.isSome_iff_exists.mp (hf a)
    simp [List.filterMap_cons, hy, ih]

/-- The length of a `filterMap` equals the count of inputs on which the
partial function succeeds. -/
theorem aux_filterMap_length (f : α → Option β) (l : List α) :
    (l.filterMap f).length = (l.filter (fun x => (f x).isSome)).length := by
  induction l with
  | nil => rfl
  | cons a t ih =>
    cases h : f a <;> simp [List.filterMap_cons, List.filter_cons, h, ih]

/-- Request count of the `active_gateways` pagination loop: one request per
leading full page plus the terminal request. -/
theorem aux_active_gateways_loop_requests (decode : Bytes → Option PeerId)
    (ps : List (List Bytes)) :
    (active_gateways_loop decode ps).2 =
      (ps.takeWhile (fun q => decide (GATEWAYS_PAGE_SIZE ≤ q.length))).length + 1 := by
  induction ps with
  | nil => rfl
  | cons p rest ih =>
    by_cases h : p.length < GATEWAYS_PAGE_SIZE
    · simp [active_gateways_loop, h, List.takeWhile_cons, Nat.not_le.mpr h]
    · simp [active_gateways_loop, h, List.takeWhile_cons, Nat.le_of_not_lt h, ih]

/-- Request count of the `gateway_clusters` pagination loop, for any
accumulated cluster map. -/
theorem aux_gateway_clusters_loop_requests (decode : Bytes → Option PeerId)
    (ps : List (List AllocationRec)) :
    ∀ cs, (gateway_clusters_loop decode cs ps).2 =
      (ps.takeWhile (fun q => decide (GATEWAYS_PAGE_SIZE ≤ q.length))).length + 1 := by
  induction ps with
  | nil => intro cs; rfl
  | cons p rest ih =>
    intro cs
    by_cases h : p.length < GATEWAYS_PAGE_SIZE
    · simp [gateway_clusters_loop, h, List.takeWhile_cons, Nat.not_le.mpr h]
    · simp [gateway_clusters_loop, h, List.takeWhile_cons, Nat.le_of_not_lt h, ih]

/-- The `active_gateways` loop accumulates exactly the decodable blobs of the
visited pages, in order. -/
theorem aux_active_gateways_loop_result (decode : Bytes → Option PeerId)
    (ps : List (List Bytes)) :
    (active_gateways_loop decode ps).1 =
      (visited_pages ps).flatten.filterMap decode := by
  induction ps with
  | nil => rfl
  | cons p rest ih =>
    by_cases h : p.length < GATEWAYS_PAGE_SIZE
    · simp [active_gateways_loop, visited_pages, h]
    · simp [active_gateways_loop, visited_pages, h, ih, List.filterMap_append]

/-! Claim C4. -/

/-- C4: `current_epoch_start` queries the anchor (L1) connection for block
number `nextEpoch - epochLength`; if that block is absent the call fails with
exactly the `blockNotFound` error kind, and on success the returned time is
that block's timestamp. The result moreover depends only on the controller
values and the L1 block store, never on the L2 block store. -/
theorem current_epoch_start_resolution (s : EpochChain)
    (hsub : s.epochLength ≤ s.nextEpoch)
    (hfit : s.nextEpoch - s.epochLength < 2 ^ 64) :
    (s.l1Blocks (s.nextEpoch - s.epochLength) = none →
      current_epoch_start s = some (Except.error ClientError.blockNotFound))
    ∧ (∀ ts, s.l1Blocks (s.nextEpoch - s.epochLength) = some ts → ts < 2 ^ 64 →
      current_epoch_start s = some (Except.ok ts))
    ∧ (∀ s2 : EpochChain, s2.nextEpoch = s.nextEpoch →
      s2.epochLength = s.epochLength → s2.l1Blocks = s.l1Blocks →
      current_epoch_start s2 = current_epoch_start s) := by
  have hfit2 : s.nextEpoch - s.epochLength < 18446744073709551616 := hfit
  refine ⟨fun h => ?_, fun ts h hts => ?_, fun s2 h1 h2 h3 => ?_⟩
  · simp [current_epoch_start, U256sub, toU64, hsub, hfit2, h]
  · have hts2 : ts < 18446744073709551616 := hts
    simp [current_epoch_start, U256sub, toU64, hsub, hfit2, h, hts2]
  · simp only [current_epoch_start, h1, h2, h3]

/-- Witness for C4: with `nextEpoch = 1000`, `epochLength = 100` and an
anchor chain holding no blocks, the call fails with `blockNotFound`. -/
theorem current_epoch_start_resolution_witness :
    current_epoch_start
      { nextEpoch := 1000, epochLength := 100,
        l1Blocks := fun _ => none, l2Blocks := fun _ => some 7 } =
      some (Except.error ClientError.blockNotFound) :=
  (current_epoch_start_resolution
    { nextEpoch := 1000, epochLength := 100,
      l1Blocks := fun _ => none, l2Blocks := fun _ => some 7 }
    (by norm_num) (by norm_num)).1 rfl

/-! Claim C6. -/

/-- C6 counterexample: the claim asserts that the block-number subtraction in
`current_epoch_start` "does not wrap around and does not abort" for every pair
of values including `epochLength > nextEpoch`. In fact the `U256` subtraction
generated by the `uint` crate is checked and panics on underflow, so with
`nextEpoch = 0` and `epochLength = 1` the call aborts (modelled as `none`). -/
theorem current_epoch_start_underflow_aborts :
    current_epoch_start
      { nextEpoch := 0, epochLength := 1,
        l1Blocks := fun _ => some 0, l2Blocks := fun _ => some 0 } = none := rfl

/-- C6 amended: the subtraction of block numbers in `current_epoch_start` is
checked, not wrapping: whenever `epochLength ≤ nextEpoch` it yields exactly
the mathematical difference (never a mod-2^256 wrap), and for
`epochLength > nextEpoch` the operation panics (aborts), again without
wrapping. -/
theorem U256sub_checked (a b : Nat) (s : EpochChain) :
    (b ≤ a → U256sub a b = some (a - b))
    ∧ (a < b → U256sub a b = none)
    ∧ (s.nextEpoch < s.epochLength → current_epoch_start s = none) := by
  refine ⟨fun h => ?_, fun h => ?_, fun h => ?_⟩
  · simp [U256sub, h]
  · simp [U256sub, Nat.not_le.mpr h]
  · simp [current_epoch_start, U256sub, Nat.not_le.mpr h]

/-- Witness for the amended C6. -/
theorem U256sub_checked_witness :
    U256sub 1000 100 = some 900 ∧ U256sub 0 1 = none :=
  ⟨(U256sub_checked 1000 100
      { nextEpoch := 0, epochLength := 0,
        l1Blocks := fun _ => none, l2Blocks := fun _ => none }).1 (by norm_num),
   (U256sub_checked 0 1
      { nextEpoch := 0, epochLength := 0,
        l1Blocks := fun _ => none, l2Blocks := fun _ => none }).2.1 (by norm_num)⟩

/-! Claim C7. -/

/-- C7: every worker returned by `active_workers` has a `deregistered_at`
that is either `none` or a strictly positive timestamp; the raw zero sentinel
never appears in the public field. -/
theorem active_workers_deregistered_at_positive (decode : Bytes → Option PeerId)
    (ws : List ContractsWorker) (ids : List Nat) (l : List Worker)
    (h : active_workers decode ws ids = Except.ok l) :
    ∀ w ∈ l, w.deregistered_at = none ∨
      ∃ t, w.deregistered_at = some t ∧ 0 < t := by
  simp only [active_workers, Except.ok.injEq] at h
  subst h
  intro w hw
  rw [List.mem_filterMap] at hw
  obtain ⟨wi, _, hmatch⟩ := hw
  cases hdec : decode wi.1.peer_id with
  | none => rw [Worker.new, hdec] at hmatch; simp at hmatch
  | some pid =>
    rw [Worker.new, hdec] at hmatch
    simp only [Option.some.injEq] at hmatch
    subst hmatch
    by_cases hd : 0 < wi.1.deregistered_at
    · exact Or.inr ⟨wi.1.deregistered_at, by simp [hd], hd⟩
    · exact Or.inl (by simp [hd])

/-- Witness for C7: a worker list containing a zero and a nonzero raw
`deregistered_at`, both of which satisfy the property after construction. -/
theorem active_workers_deregistered_at_positive_witness :
    (⟨5, 1, 2, 3, 4, some 9⟩ : Worker).deregistered_at = none ∨
      ∃ t, (⟨5, 1, 2, 3, 4, some 9⟩ : Worker).deregistered_at = some t ∧ 0 < t :=
  active_workers_deregistered_at_positive (fun bs => bs.head?)
    [⟨[5], 2, 3, 4, 9⟩, ⟨[6], 2, 3, 4, 0⟩] [1, 7] _ rfl
    ⟨5, 1, 2, 3, 4, some 9⟩ (by decide)

/-! Claim C2. -/

/-- C2: when the resolved strategy address equals the default strategy
address exactly, `current_allocations` issues a single computation-units
query, for the first worker, and every returned allocation carries that
single fetched value; when the addresses differ, one query per worker is
issued instead (the fast path is taken only on exact equality). -/
theorem current_allocations_default_fast_path (c : AllocChain) (w0 : Worker)
    (rest : List Worker) (hdef : c.used_strategy = c.default_strategy_addr) :
    ((current_allocations c (w0 :: rest)).cu_calls = [w0.onchain_id]
      ∧ (current_allocations c (w0 :: rest)).allocations.length =
          (w0 :: rest).length
      ∧ ∀ a ∈ (current_allocations c (w0 :: rest)).allocations,
          a.computation_units = c.cu_per_epoch w0.onchain_id)
    ∧ ∀ (d : AllocChain) (ws : List Worker),
        d.used_strategy ≠ d.default_strategy_addr →
        (current_allocations d ws).cu_calls = ws.map (fun w => w.onchain_id) := by
  constructor
  · refine ⟨by simp [current_allocations, hdef], by simp [current_allocations, hdef], ?_⟩
    intro a ha
    simp only [current_allocations, hdef, if_pos, List.mem_map] at ha
    obtain ⟨w, _, rfl⟩ := ha
    rfl
  · intro d ws hne
    cases ws with
    | nil => simp [current_allocations]
    | cons v t => simp [current_allocations, hne]

/-- Witness for C2: two workers under the default strategy produce one CU
query (for the first worker) and identical CU values. -/
theorem current_allocations_default_fast_path_witness :
    (current_allocations ⟨3, 3, fun i => i * 10⟩
      [⟨1, 4, 0, 0, 0, none⟩, ⟨2, 9, 0, 0, 0, none⟩]).cu_calls = [4]
    ∧ ∀ a ∈ (current_allocations ⟨3, 3, fun i => i * 10⟩
      [⟨1, 4, 0, 0, 0, none⟩, ⟨2, 9, 0, 0, 0, none⟩]).allocations,
        a.computation_units = 40 :=
  ⟨(current_allocations_default_fast_path ⟨3, 3, fun i => i * 10⟩
      ⟨1, 4, 0, 0, 0, none⟩ [⟨2, 9, 0, 0, 0, none⟩] rfl).1.1,
   (current_allocations_default_fast_path ⟨3, 3, fun i => i * 10⟩
      ⟨1, 4, 0, 0, 0, none⟩ [⟨2, 9, 0, 0, 0, none⟩] rfl).1.2.2⟩

/-! Claim C5. -/

/-- Zipping a list with its own image and mapping is a single map. -/
theorem aux_zip_map_self {α β γ : Type} (g : α → β) (h : α × β → γ)
    (ws : List α) :
    (ws.zip (ws.map g)).map h = ws.map (fun w => h (w, g w)) := by
  induction ws with
  | nil => rfl
  | cons a t ih => simp [ih]

/-- C5: `current_allocations` (with an explicitly supplied or freshly
fetched worker list) returns allocations aligned one-to-one with the
resolved worker list: same length, position `i` carries worker `i`'s peer id
and on-chain id, and under a non-default strategy worker `i`'s own fetched
CU value; an empty resolved list yields the empty result with no contract
call made. -/
theorem current_allocations_alignment (c : AllocChain) (fetched : List Worker)
    (arg : Option (List Worker)) :
    (current_allocations_opt c fetched arg).allocations.length =
      (resolved_workers fetched arg).length
    ∧ (∀ (i : Nat) (w : Worker), (resolved_workers fetched arg)[i]? = some w →
        ∃ a : Allocation,
          (current_allocations_opt c fetched arg).allocations[i]? = some a
          ∧ a.worker_peer_id = w.peer_id
          ∧ a.worker_onchain_id = w.onchain_id
          ∧ (c.used_strategy ≠ c.default_strategy_addr →
              a.computation_units = c.cu_per_epoch w.onchain_id))
    ∧ (resolved_workers fetched arg = [] →
        current_allocations_opt c fetched arg =
          { allocations := [], used_strategy_calls := 0, cu_calls := [] }) := by
  unfold current_allocations_opt
  generalize resolved_workers fetched arg = ws
  cases ws with
  | nil => exact ⟨rfl, by intro i w h; simp at h, fun _ => rfl⟩
  | cons w0 t =>
    by_cases hdef : c.used_strategy = c.default_strategy_addr
    · have halloc : (current_allocations c (w0 :: t)).allocations =
          (w0 :: t).map (fun w =>
            { worker_peer_id := w.peer_id
              worker_onchain_id := w.onchain_id
              computation_units := c.cu_per_epoch w0.onchain_id }) := by
        simp [current_allocations, hdef]
      refine ⟨by rw [halloc]; simp, ?_, by intro h; cases h⟩
      intro i w hiw
      refine ⟨{ worker_peer_id := w.peer_id
                worker_onchain_id := w.onchain_id
                computation_units := c.cu_per_epoch w0.onchain_id },
        ?_, rfl, rfl, fun hne => absurd hdef hne⟩
      rw [halloc, List.getElem?_map, hiw]
      rfl
    · have halloc : (current_allocations c (w0 :: t)).allocations =
          (w0 :: t).map (fun w =>
            { worker_peer_id := w.peer_id
              worker_onchain_id := w.onchain_id
              computation_units := c.cu_per_epoch w.onchain_id }) := by
        simp only [current_allocations, if_neg hdef]
        exact aux_zip_map_self _ _ _
      refine ⟨by rw [halloc]; simp, ?_, by intro h; cases h⟩
      intro i w hiw
      refine ⟨{ worker_peer_id := w.peer_id
                worker_onchain_id := w.onchain_id
                computation_units := c.cu_per_epoch w.onchain_id },
        ?_, rfl, rfl, fun _ => rfl⟩
      rw [halloc, List.getElem?_map, hiw]
      rfl

/-- Witness for C5: a two-worker list under a non-default strategy, aligned
at position 1. -/
theorem current_allocations_alignment_witness :
    ∃ a : Allocation, (current_allocations_opt ⟨3, 5, fun i => i * 10⟩
        [] (some [⟨1, 4, 0, 0, 0, none⟩, ⟨2, 9, 0, 0, 0, none⟩])).allocations[1]? = some a
      ∧ a.worker_peer_id = 2
      ∧ a.worker_onchain_id = 9
      ∧ (AllocChain.used_strategy ⟨3, 5, fun i => i * 10⟩ ≠
          AllocChain.default_strategy_addr ⟨3, 5, fun i => i * 10⟩ →
          a.computation_units = (9 : Nat) * 10) :=
  (current_allocations_alignment ⟨3, 5, fun i => i * 10⟩
    [] (some [⟨1, 4, 0, 0, 0, none⟩, ⟨2, 9, 0, 0, 0, none⟩])).2.1
    1 ⟨2, 9, 0, 0, 0, none⟩ rfl

/-! Claim C9. -/

/-- C9: each item of the membership stream is computed independently per
tick (an error on one tick does not affect later ticks and the stream keeps
its length); on a tick where both fetches succeed the item is exactly the
deduplicated union of gateway and worker peer ids; on a failed fetch the
tick yields that error as its item. -/
theorem network_nodes_stream_props (ticks : List TickFetch) :
    (network_nodes_stream ticks).length = ticks.length
    ∧ (∀ (i : Nat) (t : TickFetch), ticks[i]? = some t →
        (network_nodes_stream ticks)[i]? = some (network_nodes_tick t))
    ∧ (∀ t gs wks, t.gateways = Except.ok gs → t.workers = Except.ok wks →
        network_nodes_tick t = Except.ok
          (gs.toFinset ∪ (wks.map (fun w => w.peer_id)).toFinset))
    ∧ (∀ t e, t.gateways = Except.error e →
        network_nodes_tick t = Except.error e)
    ∧ (∀ t gs e, t.gateways = Except.ok gs → t.workers = Except.error e →
        network_nodes_tick t = Except.error e) := by
  refine ⟨by simp [network_nodes_stream], fun i t h => ?_,
    fun t gs wks h1 h2 => ?_, fun t e h => ?_, fun t gs e h1 h2 => ?_⟩
  · rw [network_nodes_stream, List.getElem?_map, h]; rfl
  · simp [network_nodes_tick, h1, h2]
  · simp [network_nodes_tick, h]
  · simp [network_nodes_tick, h1, h2]

/-- Witness for C9: gateways `[1, 2]` and workers with peer ids `[2, 3]`
yield exactly the set `[1, 2, 3]`; a tick whose gateway fetch fails yields the
error item, and the tick after it still produces its own item. -/
theorem network_nodes_stream_props_witness :
    network_nodes_tick
        ⟨Except.ok [1, 2], Except.ok [⟨2, 0, 0, 0, 0, none⟩, ⟨3, 0, 0, 0, 0, none⟩]⟩ =
      Except.ok ([1, 2].toFinset ∪
        (([⟨2, 0, 0, 0, 0, none⟩, ⟨3, 0, 0, 0, 0, none⟩] : List Worker).map
          (fun w => w.peer_id)).toFinset)
    ∧ ([1, 2].toFinset ∪
        (([⟨2, 0, 0, 0, 0, none⟩, ⟨3, 0, 0, 0, 0, none⟩] : List Worker).map
          (fun w => w.peer_id)).toFinset : Finset PeerId) = {1, 2, 3}
    ∧ network_nodes_tick ⟨Except.error ClientError.rpc, Except.ok []⟩ =
        Except.error ClientError.rpc
    ∧ (network_nodes_stream
        [⟨Except.ok [1, 2], Except.ok [⟨2, 0, 0, 0, 0, none⟩, ⟨3, 0, 0, 0, 0, none⟩]⟩,
         ⟨Except.error ClientError.rpc, Except.ok []⟩,
         ⟨Except.ok [7], Except.ok []⟩])[2]? =
      some (network_nodes_tick ⟨Except.ok [7], Except.ok []⟩) :=
  ⟨(network_nodes_stream_props []).2.2.1
      ⟨Except.ok [1, 2], Except.ok [⟨2, 0, 0, 0, 0, none⟩, ⟨3, 0, 0, 0, 0, none⟩]⟩
      [1, 2] [⟨2, 0, 0, 0, 0, none⟩, ⟨3, 0, 0, 0, 0, none⟩] rfl rfl,
   by decide,
   (network_nodes_stream_props []).2.2.2.1
      ⟨Except.error ClientError.rpc, Except.ok []⟩ ClientError.rpc rfl,
   (network_nodes_stream_props
      [⟨Except.ok [1, 2], Except.ok [⟨2, 0, 0, 0, 0, none⟩, ⟨3, 0, 0, 0, 0, none⟩]⟩,
       ⟨Except.error ClientError.rpc, Except.ok []⟩,
       ⟨Except.ok [7], Except.ok []⟩]).2.1
      2 ⟨Except.ok [7], Except.ok []⟩ rfl⟩

/-! Claim C3. -/

/-- C3: the paginated reads request pages of fixed size 10000 in increasing
order against one pinned block height; the loop stops exactly at the first
page whose raw length is strictly below 10000, so pages of sizes
`[10000, 10000, 4321]` cause exactly 3 requests aggregating 24321 entries and
a short first page causes exactly 1 request; the request count of both
`active_gateways` and `gateway_clusters` equals the number of leading full
pages plus one; and the result depends only on the pinned snapshot. -/
theorem pagination_protocol (decode : Bytes → Option PeerId)
    (a b c p : List Bytes) (rest ps : List (List Bytes))
    (rs : List (List AllocationRec))
    (ha : a.length = 10000) (hb : b.length = 10000) (hc : c.length = 4321)
    (hp : p.length < 10000) (hdec : ∀ x, (decode x).isSome) :
    (active_gateways_loop decode [a, b, c]).2 = 3
    ∧ (active_gateways_loop decode [a, b, c]).1.length = 24321
    ∧ (active_gateways_loop decode (p :: rest)).2 = 1
    ∧ (active_gateways_loop decode ps).2 =
        (ps.takeWhile (fun q => decide (GATEWAYS_PAGE_SIZE ≤ q.length))).length + 1
    ∧ (∀ cs, (gateway_clusters_loop decode cs rs).2 =
        (rs.takeWhile (fun q => decide (GATEWAYS_PAGE_SIZE ≤ q.length))).length + 1)
    ∧ (∀ c1 c2 : PagedChain, c1.pagesAt c1.latestBlock = c2.pagesAt c2.latestBlock →
        active_gateways decode c1 = active_gateways decode c2) := by
  have hlen := aux_filterMap_length_all_some decode hdec
  refine ⟨?_, ?_, ?_, aux_active_gateways_loop_requests decode ps,
    fun cs => aux_gateway_clusters_loop_requests decode rs cs,
    fun c1 c2 h => by simp [active_gateways, h]⟩
  · simp [active_gateways_loop, GATEWAYS_PAGE_SIZE, ha, hb, hc]
  · simp [active_gateways_loop, GATEWAYS_PAGE_SIZE, ha, hb, hc, hlen a, hlen b, hlen c]
  · simp [active_gateways_loop, GATEWAYS_PAGE_SIZE, hp]

/-- Witness for C3: concrete pages of sizes 10000, 10000, 4321 under a
total decoder give 3 requests and 24321 aggregated entries. -/
theorem pagination_protocol_witness :
    (active_gateways_loop (fun bs => some bs.length)
      [List.replicate 10000 [], List.replicate 10000 [], List.replicate 4321 []]).2 = 3
    ∧ (active_gateways_loop (fun bs => some bs.length)
      [List.replicate 10000 [], List.replicate 10000 [], List.replicate 4321 []]).1.length
        = 24321 := by
  have h := pagination_protocol (fun bs => some bs.length)
    (List.replicate 10000 ([] : Bytes)) (List.replicate 10000 ([] : Bytes))
    (List.replicate 4321 ([] : Bytes)) [] [] [] []
    (by rw [List.length_replicate]) (by rw [List.length_replicate])
    (by rw [List.length_replicate]) (by norm_num) (fun x => rfl)
  exact ⟨h.1, h.2.1⟩

/-! Claim C10. -/

/-- C10: in `active_gateways`, a gateway-id blob that fails peer-id decoding
is simply omitted: the call still returns `Ok` of exactly the decodable blobs
of the visited pages, and the page-request count (hence the termination
check, which uses the raw page length) is identical under any decoder. -/
theorem active_gateways_skips_undecodable (decode decode2 : Bytes → Option PeerId)
    (ch : PagedChain) :
    (∃ l, (active_gateways decode ch).1 = Except.ok l
      ∧ l = (visited_pages (ch.pagesAt ch.latestBlock)).flatten.filterMap decode)
    ∧ (active_gateways decode ch).2 = (active_gateways decode2 ch).2 := by
  refine ⟨⟨_, rfl, aux_active_gateways_loop_result decode _⟩, ?_⟩
  simp [active_gateways, aux_active_gateways_loop_requests]

/-! Claim C8. -/

/-- C8: `active_workers` always returns `Ok`; exactly the entries whose
peer-id bytes fail decoding are dropped, and every remaining entry appears,
in order, converted from its raw record and positional on-chain id. -/
theorem active_workers_ok_drops_only_undecodable (decode : Bytes → Option PeerId)
    (ws : List ContractsWorker) (ids : List Nat) :
    ∃ l, active_workers decode ws ids = Except.ok l
      ∧ l = (ws.zip ids).filterMap (fun wi =>
          (decode wi.1.peer_id).map (fun pid =>
            { peer_id := pid
              onchain_id := wi.2
              address := wi.1.creator
              bond := wi.1.bond
              registered_at := wi.1.registered_at
              deregistered_at :=
                if 0 < wi.1.deregistered_at then some wi.1.deregistered_at
                else none }))
      ∧ l.length =
          ((ws.zip ids).filter (fun wi => (decode wi.1.peer_id).isSome)).length := by
  have hfun : (fun wi : ContractsWorker × Nat =>
      match Worker.new decode wi.1 wi.2 with
      | Except.ok w => some w
      | Except.error _ => none) =
    (fun wi : ContractsWorker × Nat =>
      (decode wi.1.peer_id).map (fun pid =>
        { peer_id := pid
          onchain_id := wi.2
          address := wi.1.creator
          bond := wi.1.bond
          registered_at := wi.1.registered_at
          deregistered_at :=
            if 0 < wi.1.deregistered_at then some wi.1.deregistered_at
            else none })) := by
    funext wi
    cases h : decode wi.1.peer_id <;> simp [Worker.new, h]
  have hpred : (fun wi : ContractsWorker × Nat =>
      (match Worker.new decode wi.1 wi.2 with
       | Except.ok w => some w
       | Except.error _ => none).isSome) =
    (fun wi : ContractsWorker × Nat => (decode wi.1.peer_id).isSome) := by
    funext wi
    cases h : decode wi.1.peer_id <;> simp [Worker.new, h]
  refine ⟨_, rfl, by rw [hfun], ?_⟩
  rw [aux_filterMap_length, hpred]

/-! Claim C1: helper lemmas for the cluster aggregation. -/

/-- If a transformation preserves a predicate, `find?` commutes with mapping
it over the list. -/
theorem aux_find_map_preserve (P : GatewayCluster → Bool)
    (u : GatewayCluster → GatewayCluster) (hu : ∀ c, P (u c) = P c)
    (cs : List GatewayCluster) :
    (cs.map u).find? P = (cs.find? P).map u := by
  induction cs with
  | nil => rfl
  | cons c t ih =>
    by_cases h : P c = true
    · rw [List.map_cons, List.find?_cons_of_pos _ ((hu c).trans h),
        List.find?_cons_of_pos _ h]
      rfl
    · rw [List.map_cons, List.find?_cons_of_neg _ (by rw [hu c]; simpa using h),
        List.find?_cons_of_neg _ (by simpa using h), ih]

/-- Mapping an operator-preserving transformation leaves the operator list
unchanged. -/
theorem aux_map_ops_preserve (u : GatewayCluster → GatewayCluster)
    (hu : ∀ c, (u c).operator_addr = c.operator_addr)
    (cs : List GatewayCluster) :
    (cs.map u).map (fun c => c.operator_addr) =
      cs.map (fun c => c.operator_addr) := by
  induction cs with
  | nil => rfl
  | cons c t ih => simp [hu, ih]

/-- Appending a decodable record extends the decodable sub-sequence. -/
theorem aux_decodable_append_some (decode : Bytes → Option PeerId)
    (rs : List AllocationRec) (a : AllocationRec)
    (h : (decode a.gateway_id).isSome) :
    decodable_recs decode (rs ++ [a]) = decodable_recs decode rs ++ [a] := by
  simp [decodable_recs, List.filter_append, h]

/-- Appending an undecodable record leaves the decodable sub-sequence
unchanged. -/
theorem aux_decodable_append_none (decode : Bytes → Option PeerId)
    (rs : List AllocationRec) (a : AllocationRec)
    (h : decode a.gateway_id = none) :
    decodable_recs decode (rs ++ [a]) = decodable_recs decode rs := by
  simp [decodable_recs, List.filter_append, h]

/-- Folding one more record is one `add_allocation` step. -/
theorem aux_clusters_append (decode : Bytes → Option PeerId)
    (rs : List AllocationRec) (a : AllocationRec) :
    gateway_clusters_of_recs decode (rs ++ [a]) =
      add_allocation decode (gateway_clusters_of_recs decode rs) a := by
  simp [gateway_clusters_of_recs, List.foldl_append]

/-- Pushing a member onto the matching cluster commutes with `find?` by
operator. -/
theorem aux_find_update (cs : List GatewayCluster) (A : Address)
    (pid : PeerId) (op : Address) :
    (cs.map (fun c => if c.operator_addr = A
        then { c with gateway_ids := c.gateway_ids ++ [pid] } else c)).find?
      (fun c => decide (c.operator_addr = op)) =
    (cs.find? (fun c => decide (c.operator_addr = op))).map
      (fun c => if c.operator_addr = A
        then { c with gateway_ids := c.gateway_ids ++ [pid] } else c) :=
  aux_find_map_preserve _ _
    (fun c => by by_cases h : c.operator_addr = A <;> simp [h]) cs

/-- One `add_allocation` step preserves the cluster-map characterization:
operators stay pairwise distinct, and for every operator the cluster found
is the one predicted by `cluster_spec` over the records processed so far. -/
theorem aux_add_allocation_spec (decode : Bytes → Option PeerId)
    (rs : List AllocationRec) (a : AllocationRec) (cs : List GatewayCluster)
    (hnodup : (cs.map (fun c => c.operator_addr)).Nodup)
    (hfind : ∀ op : Address,
      cs.find? (fun c => decide (c.operator_addr = op)) =
        cluster_spec decode rs op) :
    ((add_allocation decode cs a).map (fun c => c.operator_addr)).Nodup
    ∧ ∀ op : Address,
        (add_allocation decode cs a).find?
            (fun c => decide (c.operator_addr = op)) =
          cluster_spec decode (rs ++ [a]) op := by
  cases hdec : decode a.gateway_id with
  | none =>
    have hadd : add_allocation decode cs a = cs := by
      simp [add_allocation, hdec]
    refine ⟨by rw [hadd]; exact hnodup, fun op => ?_⟩
    rw [hadd, hfind op]
    unfold cluster_spec
    rw [aux_decodable_append_none decode rs a hdec]
  | some pid =>
    have hsome : (decode a.gateway_id).isSome := by rw [hdec]; rfl
    have hdecrs : decodable_recs decode (rs ++ [a]) =
        decodable_recs decode rs ++ [a] :=
      aux_decodable_append_some decode rs a hsome
    by_cases hany : cs.any (fun c => c.operator_addr = a.operator) = true
    · have hadd : add_allocation decode cs a =
          cs.map (fun c => if c.operator_addr = a.operator
            then { c with gateway_ids := c.gateway_ids ++ [pid] } else c) := by
        simp [add_allocation, hdec, hany]
      have hcs_some : (cs.find?
          (fun c => decide (c.operator_addr = a.operator))).isSome := by
        rw [List.find?_isSome]
        exact List.any_eq_true.mp hany
      have h0ex : ((decodable_recs decode rs).find?
          (fun r => decide (r.operator = a.operator))).isSome := by
        obtain ⟨c0, hc0⟩ := Option.isSome_iff_exists.mp hcs_some
        rw [hfind a.operator] at hc0
        unfold cluster_spec at hc0
        cases h0 : (decodable_recs decode rs).find?
            (fun r => decide (r.operator = a.operator)) with
        | none => rw [h0] at hc0; exact Option.noConfusion hc0
        | some r0 => rfl
      obtain ⟨r0, h0⟩ := Option.isSome_iff_exists.mp h0ex
      constructor
      · rw [hadd, aux_map_ops_preserve]
        · exact hnodup
        · intro c
          by_cases h : c.operator_addr = a.operator <;> simp [h]
      · intro op
        rw [hadd, aux_find_update, hfind op]
        by_cases hop : a.operator = op
        · subst hop
          unfold cluster_spec
          rw [hdecrs]
          simp only [List.find?_append, h0, List.filter_append]
          simp [hdec, Option.or, List.find?, List.filter, List.filterMap_append]
        · have hQa : decide (a.operator = op) = false := by simp [hop]
          unfold cluster_spec
          rw [hdecrs]
          simp only [List.find?_append, List.filter_append]
          cases h1 : (decodable_recs decode rs).find?
              (fun r => decide (r.operator = op)) with
          | none => simp [List.find?, hQa, Option.or, List.filter, h1]
          | some r1 =>
            simp [List.find?, hQa, Option.or, List.filter, h1,
              show ¬ (op = a.operator) from fun hh => hop hh.symm]
    · rw [Bool.not_eq_true] at hany
      have hadd : add_allocation decode cs a = cs ++
          [{ operator_addr := a.operator
             gateway_ids := [pid]
             allocated_computation_units := a.allocated }] := by
        simp [add_allocation, hdec, hany]
      have hnone : cs.find?
          (fun c => decide (c.operator_addr = a.operator)) = none :=
        List.find?_eq_none.mpr (List.any_eq_false.mp hany)
      have hspec_none : cluster_spec decode rs a.operator = none := by
        rw [← hfind a.operator]
        exact hnone
      have hdrs_none : (decodable_recs decode rs).find?
          (fun r => decide (r.operator = a.operator)) = none := by
        cases h0 : (decodable_recs decode rs).find?
            (fun r => decide (r.operator = a.operator)) with
        | none => rfl
        | some r0 =>
          exfalso
          unfold cluster_spec at hspec_none
          rw [h0] at hspec_none
          exact Option.noConfusion hspec_none
      have hfilter_nil : (decodable_recs decode rs).filter
          (fun r => decide (r.operator = a.operator)) = [] := by
        rw [List.filter_eq_nil_iff]
        exact List.find?_eq_none.mp hdrs_none
      have hnotmem : a.operator ∉ cs.map (fun c => c.operator_addr) := by
        intro hmem
        rw [List.mem_map] at hmem
        obtain ⟨c, hc, hca⟩ := hmem
        have := List.find?_eq_none.mp hnone c hc
        simp [hca] at this
      constructor
      · rw [hadd, List.map_append]
        refine List.Nodup.append hnodup (by simp) ?_
        intro x hx hx2
        simp only [List.map_cons, List.map_nil, List.mem_singleton] at hx2
        subst hx2
        exact hnotmem hx
      · intro op
        rw [hadd, List.find?_append, hfind op]
        by_cases hop : a.operator = op
        · subst hop
          rw [hspec_none]
          unfold cluster_spec
          rw [hdecrs, List.find?_append, hdrs_none, List.filter_append,
            hfilter_nil]
          simp [List.find?, Option.or, hdec, List.filter]
        · have hQa : decide (a.operator = op) = false := by simp [hop]
          have hPn : List.find? (fun c => decide (c.operator_addr = op))
              [({ operator_addr := a.operator
                  gateway_ids := [pid]
                  allocated_computation_units := a.allocated } : GatewayCluster)] =
              none := by
            simp [List.find?, hQa]
          rw [hPn]
          unfold cluster_spec
          rw [hdecrs]
          simp only [List.find?_append, List.filter_append]
          cases h1 : (decodable_recs decode rs).find?
              (fun r => decide (r.operator = op)) with
          | none => simp [List.find?, hQa, Option.or, List.filter, h1]
          | some r1 => simp [List.find?, hQa, Option.or, List.filter, h1]

/-! Claim C1: counterexample and amended theorem. -/

/-- C1 counterexample: with records visited in the order
`[(gateway [], operator 5, allocated 50), (gateway [9], operator 5, allocated 70)]`
and `List.head?` as the peer-id decoder (so `[]` fails to decode and is
skipped before the map insertion), the produced cluster for operator 5
carries CU 70, not the `allocated` value 50 of the first record seen for
that operator during pagination — refuting the claim as stated. -/
theorem gateway_clusters_first_seen_cex :
    ¬ (∀ c ∈ gateway_clusters_of_recs List.head?
        [⟨[], 5, 50⟩, ⟨[9], 5, 70⟩],
        ((([⟨[], 5, 50⟩, ⟨[9], 5, 70⟩] : List AllocationRec).find?
            (fun r => decide (r.operator = c.operator_addr))).map
          (fun r => r.allocated)) = some c.allocated_computation_units) := by
  decide

/-- C1 amended: for every sequence of visited allocation records, the result
contains exactly one cluster per distinct operator address *among the records
whose gateway id decodes successfully* (operators appearing only in
undecodable records get no cluster): the cluster's
`allocated_computation_units` equals the `allocated` value of the first
*decodable* record for that operator, and each later decodable record for
the operator only appends its decoded gateway peer id to the member list,
never changing the CU value. -/
theorem gateway_clusters_first_decodable (decode : Bytes → Option PeerId)
    (rs : List AllocationRec) :
    ((gateway_clusters_of_recs decode rs).map (fun c => c.operator_addr)).Nodup
    ∧ ∀ op : Address,
        (gateway_clusters_of_recs decode rs).find?
            (fun c => decide (c.operator_addr = op)) =
          cluster_spec decode rs op := by
  induction rs using List.reverseRecOn with
  | nil => exact ⟨List.nodup_nil, fun _ => rfl⟩
  | append_singleton rs a ih =>
    rw [aux_clusters_append decode rs a]
    exact aux_add_allocation_spec decode rs a
      (gateway_clusters_of_recs decode rs) ih.1 ih.2

end Subsquid
